import Mathlib

/-!
# Verification of the Pixlim client-side image compressor

Shallow embedding of the state-management and helper logic of
`src/app/page.tsx` and the image-processing helpers of
`src/unnamed/part_000` (the `@/lib/image-processing` module), together
with proofs about the embedded definitions.

Modelling conventions:
* A JS `File` is a structure carrying `name`, `type` (MIME string) and
  `size` (byte count).
* A `Blob` is its list of bytes (`List Nat`); `blob.size` is the list
  length.
* `null` / `undefined` fields are `Option`.
* The external `browser-image-compression` call is an oracle parameter
  `CompressFn : JsFile → Nat → Except String CompressResult`: the
  library either resolves with a compressed blob and its data URL, or
  rejects with an error message (the wrapper in `compressImage`
  converts any rejection into a thrown `Error`, caught in
  `compressAllImages`).
* React state updates are modelled by a small-step machine over the
  component state: every `setImages` call in the source is one
  observable transition.
-/

/-- The `status` field of a record (`src/app/page.tsx` line 24). -/
inductive Status where
  | pending
  | compressing
  | completed
  | error
deriving DecidableEq

/-- A JS `File`: the metadata the embedded code reads from it. -/
structure JsFile where
  name : String
  type : String
  size : Nat
deriving DecidableEq

/-- Result of a successful `compressImage` call
(`src/unnamed/part_000` lines 11-29): the compressed blob (as bytes)
and its data URL. -/
structure CompressResult where
  blob : List Nat
  dataUrl : String
deriving DecidableEq

/-- Oracle for the external compression library: given the file and
the quality (1-100), either a result or the error message produced by
the `compressImage` wrapper. -/
def CompressFn : Type := JsFile → Nat → Except String CompressResult

/-- The `CompressedImage` record (`src/app/page.tsx` lines 16-27). -/
structure CompressedImage where
  id : String
  file : JsFile
  originalUrl : String
  originalSize : Nat
  compressedUrl : Option String
  compressedBlob : Option (List Nat)
  compressedSize : Option Nat
  status : Status
  error : Option String
  quality : Nat
deriving DecidableEq

/-- The record built for one accepted file in `processFiles`
(`src/app/page.tsx` lines 124-137): `id` is `` `${file.name}-${Date.now()}` ``,
the payload fields are `null` and the status is `"pending"`. The
`Date.now()` value and the data URL read by `readFileAsDataURL` are
passed in as parameters. -/
def mkPendingRecord (quality : Nat) (file : JsFile) (timestamp : Nat)
    (originalUrl : String) : CompressedImage :=
  { id := file.name ++ "-" ++ toString timestamp
    file := file
    originalUrl := originalUrl
    originalSize := file.size
    compressedUrl := none
    compressedBlob := none
    compressedSize := none
    status := Status.pending
    error := none
    quality := quality }

/-- The record produced for one image once its compression promise
settles: the `try` branch of `compressAllImages` on success
(`src/app/page.tsx` lines 153-162), the `catch` branch on failure
(lines 163-174). -/
def applyResult (q : Nat) (img : CompressedImage) :
    Except String CompressResult → CompressedImage
  | Except.ok r =>
      { img with
        compressedUrl := some r.dataUrl
        compressedBlob := some r.blob
        compressedSize := some r.blob.length
        status := Status.completed
        quality := q
        error := none }
  | Except.error e =>
      { img with
        compressedUrl := none
        compressedBlob := none
        compressedSize := none
        status := Status.error
        error := some e
        quality := q }

/-- One record's journey through the `currentImages.map` callback of
`compressAllImages` (`src/app/page.tsx` lines 144-175): a record that
already failed at this same quality is returned unchanged (lines
145-148); otherwise the compression oracle decides the outcome. -/
def resolveOne (compress : CompressFn) (q : Nat)
    (img : CompressedImage) : CompressedImage :=
  if img.status = Status.error ∧ img.quality = q then img
  else applyResult q img (compress img.file q)

/-- The full-batch result assembled by `Promise.all` and published by
the final `setImages(updatedImages)` (`src/app/page.tsx` lines
143-177). -/
def compressAllImages (compress : CompressFn) (q : Nat)
    (currentImages : List CompressedImage) : List CompressedImage :=
  currentImages.map (resolveOne compress q)

/-- The intermediate `setImages` issued before each record's
compression starts (`src/app/page.tsx` lines 150-152): every record
with the given id gets `status: "compressing"` and the new quality,
all other fields kept. -/
def markCompressing (q : Nat) (targetId : String)
    (l : List CompressedImage) : List CompressedImage :=
  l.map (fun i =>
    if i.id = targetId then { i with status := Status.compressing, quality := q }
    else i)

/-- An in-flight bulk run: the quality it was started with, the
snapshot of the collection passed to `compressAllImages`, and how many
snapshot records have already had their `"compressing"` mark
published. -/
structure Batch where
  q : Nat
  snapshot : List CompressedImage
  marked : Nat
deriving DecidableEq

/-- The component state: the `images` and `compressionQuality` React
state plus the in-flight batch (if any). -/
structure AppState where
  images : List CompressedImage
  quality : Nat
  inflight : Option Batch
deriving DecidableEq

/-- Initial component state (`useState<CompressedImage[]>([])` and
`useState<number>(80)`, `src/app/page.tsx` lines 30-31). -/
def initState : AppState := { images := [], quality := 80, inflight := none }

/-- Embedding of `processFiles` (`src/app/page.tsx` lines 122-140): builds pending
records for the accepted files (with their `Date.now()` stamps and
data URLs), appends them, and starts a batch over
`[...images, ...newImages]` at the current quality. -/
def intakeStep (meta : List (JsFile × Nat × String)) (s : AppState) : AppState :=
  let newImages := meta.map (fun m => mkPendingRecord s.quality m.1 m.2.1 m.2.2)
  let all := s.images ++ newImages
  { images := all, quality := s.quality,
    inflight := some { q := s.quality, snapshot := all, marked := 0 } }

/-- The quality slider plus the `[compressionQuality]` effect
(`src/app/page.tsx` lines 180-184): the quality changes, and if the
collection is non-empty a batch over the current collection starts. -/
def setQualityStep (q : Nat) (s : AppState) : AppState :=
  if s.images.isEmpty then { images := s.images, quality := q, inflight := none }
  else { images := s.images, quality := q,
         inflight := some { q := q, snapshot := s.images, marked := 0 } }

/-- One record's synchronous prefix of the `compressAllImages` map
callback: if the record is skipped (failed at this same quality,
`src/app/page.tsx` lines 145-148) nothing is published; otherwise the
`"compressing"` mark (lines 150-152) is applied to the live
collection. Either way the batch advances to the next record. -/
def markStep (s : AppState) (b : Batch) : AppState :=
  match b.snapshot[b.marked]? with
  | none => { s with inflight := some { b with marked := b.marked + 1 } }
  | some img =>
      if img.status = Status.error ∧ img.quality = b.q then
        { s with inflight := some { b with marked := b.marked + 1 } }
      else
        { images := markCompressing b.q img.id s.images
          quality := s.quality
          inflight := some { b with marked := b.marked + 1 } }

/-- The `Promise.all` fan-in and the final `setImages(updatedImages)`
(`src/app/page.tsx` lines 143, 177): the whole collection is replaced
by the batch result computed from the snapshot. -/
def finishStep (compress : CompressFn) (b : Batch) (s : AppState) : AppState :=
  { images := compressAllImages compress b.q b.snapshot
    quality := s.quality
    inflight := none }

/-- Embedding of `handleRemoveImage` (`src/app/page.tsx` lines 186-188). -/
def handleRemoveImage (targetId : String)
    (l : List CompressedImage) : List CompressedImage :=
  l.filter (fun img => img.id ≠ targetId)

/-- The state transition performed by `handleRemoveImage`: only the
`images` list is filtered. -/
def removeStep (targetId : String) (s : AppState) : AppState :=
  { s with images := handleRemoveImage targetId s.images }

/-- Observable transitions of the component: each constructor is one
`setImages`/`setCompressionQuality` publication (or the synchronous
start of a batch). A new batch starts only when none is in flight;
removal can interleave with an in-flight batch. -/
inductive Step (compress : CompressFn) : AppState → AppState → Prop where
  | intake {s : AppState} (meta : List (JsFile × Nat × String))
      (h : s.inflight = none) :
      Step compress s (intakeStep meta s)
  | setQuality {s : AppState} (q : Nat) (h : s.inflight = none)
      (hq : q ≠ s.quality) :
      Step compress s (setQualityStep q s)
  | mark {s : AppState} (b : Batch) (h : s.inflight = some b)
      (hlt : b.marked < b.snapshot.length) :
      Step compress s (markStep s b)
  | finish {s : AppState} (b : Batch) (h : s.inflight = some b)
      (hall : b.snapshot.length ≤ b.marked) :
      Step compress s (finishStep compress b s)
  | remove {s : AppState} (targetId : String) :
      Step compress s (removeStep targetId s)

/-- States reachable from the initial component state. -/
inductive Reachable (compress : CompressFn) : AppState → Prop where
  | init : Reachable compress initState
  | step {s s' : AppState} (hr : Reachable compress s)
      (hs : Step compress s s') : Reachable compress s'

/-! ## Export helpers -/

/-- Embedding of `name.replace(/\.[^/.]+$/, "")` (`src/app/page.tsx` lines 200, 208,
364): strips a final `.ext` where `ext` is non-empty and contains
neither `.` nor `/`. -/
def stripExt (s : String) : String :=
  let rev := s.data.reverse
  let pre := rev.takeWhile (fun c => c ≠ '.' && c ≠ '/')
  match rev.drop pre.length with
  | '.' :: rest => if pre.isEmpty then s else String.mk rest.reverse
  | _ => s

/-- Embedding of `getFileExtension` (`src/unnamed/part_000` lines 63-74). -/
def getFileExtension (mimeType : String) : String :=
  if mimeType = "image/jpeg" then "jpg"
  else if mimeType = "image/png" then "png"
  else if mimeType = "image/webp" then "webp"
  else "bin"

/-- The download filename `` `compressed_${name-without-ext}.${ext}` ``
used in `handleDownload` and `handleDownloadAll` (`src/app/page.tsx`
lines 200, 208, 364). -/
def downloadName (img : CompressedImage) : String :=
  "compressed_" ++ stripExt img.file.name ++ "." ++ getFileExtension img.file.type

/-- A browser download initiated by the page: either a single blob
saved under a filename, or an archive (the entries handed to
`createZip`, `src/unnamed/part_000` lines 50-56, in order) saved under
a filename. Zip byte encoding itself is delegated to JSZip. -/
inductive DownloadAction where
  | single (name : String) (blob : List Nat)
  | archive (name : String) (entries : List (String × List Nat))
deriving DecidableEq

/-- Export-one: `handleDownload` in `ImageCard` (`src/app/page.tsx`
lines 359-370): downloads the compressed blob when present. -/
def handleDownload (img : CompressedImage) : Option DownloadAction :=
  match img.compressedBlob with
  | some b => some (DownloadAction.single (downloadName img) b)
  | none => none

/-- The filter `img.status === "completed" && img.compressedBlob`
(`src/app/page.tsx` line 191). -/
def completedImages (l : List CompressedImage) : List CompressedImage :=
  l.filter (fun img => decide (img.status = Status.completed) && img.compressedBlob.isSome)

/-- Export-all: `handleDownloadAll` (`src/app/page.tsx` lines
190-227): no completed record means no action; exactly one means a
direct single download; more than one means a zip of all completed
records under the fixed name. -/
def handleDownloadAll (l : List CompressedImage) : Option DownloadAction :=
  match completedImages l with
  | [] => none
  | [img] => some (DownloadAction.single (downloadName img) (img.compressedBlob.getD []))
  | img1 :: img2 :: rest =>
      some (DownloadAction.archive "LitePress_Compressed_Images.zip"
        ((img1 :: img2 :: rest).map
          (fun img => (downloadName img, img.compressedBlob.getD []))))

/-! ## Byte-size formatting -/

/-- The `sizes` array of `formatBytes` (`src/app/page.tsx` line 376). -/
def sizesArray : List String := ["Bytes", "KB", "MB", "GB", "TB"]

/-- How JS prints `Number.parseFloat(x.toFixed(2))` for the
non-negative value `n / 100`: at most two decimals, trailing zeros
(and a trailing decimal point) dropped. -/
def numString (n : Nat) : String :=
  let q := n / 100
  let r := n % 100
  if r = 0 then toString q
  else if r % 10 = 0 then toString q ++ "." ++ toString (r / 10)
  else if r < 10 then toString q ++ ".0" ++ toString r
  else toString q ++ "." ++ toString r

/-- Embedding of `formatBytes` (`src/app/page.tsx` lines 372-379), in exact
arithmetic: the unit index is `⌊log_1024 bytes⌋` (what
`Math.floor(Math.log(bytes) / Math.log(k))` computes), and
`(200 * b + 1024 ^ i) / (2 * 1024 ^ i)` is `b / 1024^i` scaled to
hundredths and rounded half-up (what `toFixed(2)` does). An index past
the array end prints `undefined`, as JS indexing does. -/
def formatBytes : Option Nat → String
  | none => "N/A"
  | some b =>
      if b = 0 then "0 Bytes"
      else
        numString ((200 * b + 1024 ^ Nat.log 1024 b) / (2 * 1024 ^ Nat.log 1024 b))
          ++ " " ++ sizesArray.getD (Nat.log 1024 b) "undefined"

/-! ## Intake: drag-and-drop traversal -/

mutual
/-- A `FileSystemEntry` tree as handed to `processEntry`
(`src/app/page.tsx` lines 64-81): a file entry or a directory entry
with a list of children. The mutual list type gives the traversal
plain structural recursion. -/
inductive FSEntry where
  | file (f : JsFile) : FSEntry
  | dir (entries : FSEntryList) : FSEntry
/-- A list of `FileSystemEntry` values (what `readEntries` yields). -/
inductive FSEntryList where
  | nil : FSEntryList
  | cons (e : FSEntry) (rest : FSEntryList) : FSEntryList
end

/-- Tests that `p` is a prefix of `s`, character by character: the semantics of
JS `String.prototype.startsWith` (computable in the kernel, unlike
`String.startsWith`). -/
def charPrefixOf : List Char → List Char → Bool
  | [], _ => true
  | _ :: _, [] => false
  | c :: cs, d :: ds => c == d && charPrefixOf cs ds

/-- The MIME filter of `handleDrop` (`src/app/page.tsx` lines 67-73):
`file.type.startsWith(...)` for the three supported types. -/
def acceptsType (t : String) : Bool :=
  charPrefixOf "image/jpeg".data t.data || charPrefixOf "image/png".data t.data ||
    charPrefixOf "image/webp".data t.data

mutual
/-- Embedding of `processEntry` (`src/app/page.tsx` lines 64-81), parameterised by
how many entries a single `reader.readEntries` call yields. The code
calls `readEntries` exactly once per directory, so only the first
`chunk` children of each directory are visited; the
`FileSystemDirectoryReader` API returns the remaining entries only on
repeated calls (Chromium yields at most 100 per call). -/
def processEntry (chunk : Nat) : FSEntry → List JsFile
  | FSEntry.file f => if acceptsType f.type then [f] else []
  | FSEntry.dir es => processChildren chunk chunk es
termination_by structural e => e
/-- The `for (const subEntry of entries)` loop over the single
`readEntries` batch: at most `n` children are visited. -/
def processChildren (chunk : Nat) : Nat → FSEntryList → List JsFile
  | _, FSEntryList.nil => []
  | 0, FSEntryList.cons _ _ => []
  | n + 1, FSEntryList.cons e rest =>
      processEntry chunk e ++ processChildren chunk n rest
termination_by structural _ l => l
end

mutual
/-- Ground truth for the intake contract: every accepted file anywhere
in the tree, at any depth, with no bound on directory width. -/
def allAcceptedFiles : FSEntry → List JsFile
  | FSEntry.file f => if acceptsType f.type then [f] else []
  | FSEntry.dir es => allAcceptedList es
termination_by structural e => e
/-- Accepted files of every entry in a list, in order. -/
def allAcceptedList : FSEntryList → List JsFile
  | FSEntryList.nil => []
  | FSEntryList.cons e rest => allAcceptedFiles e ++ allAcceptedList rest
termination_by structural l => l
end

/-- Builds a directory whose children are `n` copies of one entry. -/
def replicateEntries (e : FSEntry) : Nat → FSEntryList
  | 0 => FSEntryList.nil
  | n + 1 => FSEntryList.cons e (replicateEntries e n)

/-! ## Record-shape invariant

What the four statuses imply for the payload and error fields. A
`compressing` record is deliberately unconstrained: the intermediate
`setImages` of `compressAllImages` keeps the previous payload and
error message while re-processing. -/

/-- Shape of a single record according to its status. -/
def recordOk (img : CompressedImage) : Prop :=
  (img.status = Status.completed →
    img.compressedBlob.isSome = true ∧ img.compressedUrl.isSome = true ∧
      img.compressedSize.isSome = true ∧ img.error = none) ∧
  (img.status = Status.pending →
    img.compressedBlob = none ∧ img.compressedUrl = none ∧
      img.compressedSize = none ∧ img.error = none) ∧
  (img.status = Status.error →
    img.compressedBlob = none ∧ img.compressedUrl = none ∧
      img.compressedSize = none ∧ img.error.isSome = true)

/-- Every record in the live collection and in the in-flight snapshot
has the shape dictated by its status. -/
def stateOk (s : AppState) : Prop :=
  (∀ img ∈ s.images, recordOk img) ∧
    ∀ b, s.inflight = some b → ∀ img ∈ b.snapshot, recordOk img

theorem recordOk_mkPendingRecord (q : Nat) (f : JsFile) (t : Nat) (u : String) :
    recordOk (mkPendingRecord q f t u) := by
  refine ⟨?_, ?_, ?_⟩ <;> intro h <;> simp [mkPendingRecord] at h ⊢

theorem recordOk_applyResult (q : Nat) (img : CompressedImage)
    (r : Except String CompressResult) : recordOk (applyResult q img r) := by
  cases r <;> refine ⟨?_, ?_, ?_⟩ <;> intro h <;> simp [applyResult] at h ⊢

theorem recordOk_resolveOne (compress : CompressFn) (q : Nat)
    (img : CompressedImage) (h : recordOk img) :
    recordOk (resolveOne compress q img) := by
  rw [resolveOne]
  split
  · exact h
  · exact recordOk_applyResult q img (compress img.file q)

theorem recordOk_mark (q : Nat) (img : CompressedImage) :
    recordOk { img with status := Status.compressing, quality := q } := by
  refine ⟨?_, ?_, ?_⟩ <;> intro h <;> simp at h

theorem recordOk_of_mem_markCompressing {q : Nat} {tid : String}
    {l : List CompressedImage} (hl : ∀ x ∈ l, recordOk x) :
    ∀ img ∈ markCompressing q tid l, recordOk img := by
  intro img hmem
  rw [markCompressing] at hmem
  obtain ⟨x, hx, rfl⟩ := List.mem_map.mp hmem
  by_cases hid : x.id = tid
  · rw [if_pos hid]
    exact recordOk_mark q x
  · rw [if_neg hid]
    exact hl x hx

/-- The property `stateOk` is preserved by every observable transition. -/
theorem stateOk_step {compress : CompressFn} {s s' : AppState}
    (hs : Step compress s s') (ih : stateOk s) : stateOk s' := by
  cases hs with
  | intake meta hin =>
      have hall : ∀ img ∈ (intakeStep meta s).images, recordOk img := by
        intro img hmem
        simp only [intakeStep] at hmem
        rcases List.mem_append.mp hmem with hmem | hmem
        · exact ih.1 img hmem
        · obtain ⟨m, _, rfl⟩ := List.mem_map.mp hmem
          exact recordOk_mkPendingRecord s.quality m.1 m.2.1 m.2.2
      refine ⟨hall, ?_⟩
      intro b hb img hmem
      simp only [intakeStep, Option.some.injEq] at hb
      subst hb
      exact hall img (by simpa [intakeStep] using hmem)
  | setQuality q hin hq =>
      by_cases he : s.images.isEmpty
      · refine ⟨?_, ?_⟩
        · intro img hmem
          exact ih.1 img (by simpa [setQualityStep, he] using hmem)
        · intro b hb
          simp [setQualityStep, he] at hb
      · refine ⟨?_, ?_⟩
        · intro img hmem
          exact ih.1 img (by simpa [setQualityStep, he] using hmem)
        · intro b hb img hmem
          simp only [setQualityStep, he, Bool.false_eq_true, if_false,
            Option.some.injEq] at hb
          subst hb
          exact ih.1 img hmem
  | mark b0 hb0 hlt =>
      cases hget : b0.snapshot[b0.marked]? with
      | none =>
        refine ⟨?_, ?_⟩
        · intro img hmem
          exact ih.1 img (by simpa [markStep, hget] using hmem)
        · intro b hb img hmem
          simp only [markStep, hget, Option.some.injEq] at hb
          subst hb
          exact ih.2 b0 hb0 img hmem
      | some tgt =>
        by_cases hc : tgt.status = Status.error ∧ tgt.quality = b0.q
        · refine ⟨?_, ?_⟩
          · intro img hmem
            exact ih.1 img (by simpa [markStep, hget, hc] using hmem)
          · intro b hb img hmem
            simp only [markStep, hget, if_pos hc, Option.some.injEq] at hb
            subst hb
            exact ih.2 b0 hb0 img hmem
        · refine ⟨?_, ?_⟩
          · intro img hmem
            rw [show (markStep s b0).images = markCompressing b0.q tgt.id s.images by
              simp [markStep, hget, hc]] at hmem
            exact recordOk_of_mem_markCompressing ih.1 img hmem
          · intro b hb img hmem
            simp only [markStep, hget, if_neg hc, Option.some.injEq] at hb
            subst hb
            exact ih.2 b0 hb0 img hmem
  | finish b0 hb0 hall =>
      refine ⟨?_, ?_⟩
      · intro img hmem
        simp only [finishStep, compressAllImages] at hmem
        obtain ⟨x, hx, rfl⟩ := List.mem_map.mp hmem
        exact recordOk_resolveOne compress b0.q x (ih.2 b0 hb0 x hx)
      · intro b hb
        simp [finishStep] at hb
  | remove rid =>
      refine ⟨?_, ?_⟩
      · intro img hmem
        simp only [removeStep, handleRemoveImage] at hmem
        exact ih.1 img (List.mem_of_mem_filter hmem)
      · intro b hb img hmem
        exact ih.2 b (by simpa [removeStep] using hb) img hmem

/-- Invariant: `stateOk` holds in every reachable state. -/
theorem stateOk_reachable {compress : CompressFn} {s : AppState}
    (h : Reachable compress s) : stateOk s := by
  induction h with
  | init => exact ⟨by simp [initState], by simp [initState]⟩
  | step hr hs ih => exact stateOk_step hs ih

/-! ## No partial results mid-batch

While a batch is in flight, every live record still carries exactly
the payload, size and error fields it had in the batch's snapshot:
the only intermediate publications are the `"compressing"` marks. -/

/-- The record matches a snapshot record of the same id in every
result-carrying field; only its status may have moved to
`compressing`. -/
def resultsUnchanged (snapshot : List CompressedImage)
    (img : CompressedImage) : Prop :=
  ∃ img0 ∈ snapshot, img0.id = img.id ∧
    img.compressedBlob = img0.compressedBlob ∧
    img.compressedUrl = img0.compressedUrl ∧
    img.compressedSize = img0.compressedSize ∧
    img.error = img0.error ∧
    (img.status = img0.status ∨ img.status = Status.compressing)

theorem resultsUnchanged_refl (snapshot : List CompressedImage)
    (img : CompressedImage) (h : img ∈ snapshot) :
    resultsUnchanged snapshot img :=
  ⟨img, h, rfl, rfl, rfl, rfl, rfl, Or.inl rfl⟩

theorem resultsUnchanged_of_mem_markCompressing {snap : List CompressedImage}
    {q : Nat} {tid : String} {l : List CompressedImage}
    (hl : ∀ x ∈ l, resultsUnchanged snap x) :
    ∀ img ∈ markCompressing q tid l, resultsUnchanged snap img := by
  intro img hmem
  rw [markCompressing] at hmem
  obtain ⟨x, hx, rfl⟩ := List.mem_map.mp hmem
  obtain ⟨img0, h0, hid, hblob, hurl, hsize, herr, hstat⟩ := hl x hx
  by_cases hcase : x.id = tid
  · rw [if_pos hcase]
    exact ⟨img0, h0, hid, hblob, hurl, hsize, herr, Or.inr rfl⟩
  · rw [if_neg hcase]
    exact ⟨img0, h0, hid, hblob, hurl, hsize, herr, hstat⟩

/-- One observable transition preserves the mid-batch property. -/
theorem noNewResults_step {compress : CompressFn} {s s' : AppState}
    (hs : Step compress s s')
    (ih : ∀ b, s.inflight = some b → ∀ img ∈ s.images, resultsUnchanged b.snapshot img) :
    ∀ b, s'.inflight = some b → ∀ img ∈ s'.images, resultsUnchanged b.snapshot img := by
  cases hs with
    | intake meta hin =>
      intro b hb img hmem
      simp only [intakeStep, Option.some.injEq] at hb
      subst hb
      exact resultsUnchanged_refl _ img (by simpa [intakeStep] using hmem)
    | setQuality q hin hq =>
      by_cases he : s.images.isEmpty
      · intro b hb
        simp [setQualityStep, he] at hb
      · intro b hb img hmem
        simp only [setQualityStep, he, Bool.false_eq_true, if_false,
          Option.some.injEq] at hb
        subst hb
        exact resultsUnchanged_refl _ img (by simpa [setQualityStep, he] using hmem)
    | mark b0 hb0 hlt =>
      cases hget : b0.snapshot[b0.marked]? with
      | none =>
        intro b hb img hmem
        simp only [markStep, hget, Option.some.injEq] at hb
        subst hb
        exact ih b0 hb0 img (by simpa [markStep, hget] using hmem)
      | some tgt =>
        by_cases hc : tgt.status = Status.error ∧ tgt.quality = b0.q
        · intro b hb img hmem
          simp only [markStep, hget, if_pos hc, Option.some.injEq] at hb
          subst hb
          exact ih b0 hb0 img (by simpa [markStep, hget, hc] using hmem)
        · intro b hb img hmem
          simp only [markStep, hget, if_neg hc, Option.some.injEq] at hb
          subst hb
          rw [show (markStep s b0).images = markCompressing b0.q tgt.id s.images by
            simp [markStep, hget, hc]] at hmem
          exact resultsUnchanged_of_mem_markCompressing (ih b0 hb0) img hmem
    | finish b0 hb0 hall =>
      intro b hb
      simp [finishStep] at hb
    | remove rid =>
      intro b hb img hmem
      simp only [removeStep, handleRemoveImage] at hmem
      exact ih b (by simpa [removeStep] using hb) img (List.mem_of_mem_filter hmem)

/-- Mid-batch, no record of the live collection carries a result that
is not already in the snapshot. -/
theorem inflight_no_new_results {compress : CompressFn} {s : AppState}
    (h : Reachable compress s) :
    ∀ b, s.inflight = some b → ∀ img ∈ s.images, resultsUnchanged b.snapshot img := by
  induction h with
  | init =>
    intro b hb
    simp [initState] at hb
  | step hr hs ih => exact noNewResults_step hs ih

/-! ## A concrete run

Two files are dropped at the initial quality 80: `ok.jpg` compresses
successfully, `bad.png` fails. The batch resolves, then the quality is
changed to 50 and the second batch's `"compressing"` marks are
published. -/

/-- Demo oracle: `ok.jpg` compresses to the two-byte blob `[7, 7]`,
everything else fails with message `"boom"`. -/
def demoCompress : CompressFn := fun f _ =>
  if f.name = "ok.jpg" then Except.ok { blob := [7, 7], dataUrl := "dataUrlC" }
  else Except.error "boom"

/-- A JPEG file that will compress successfully. -/
def fOk : JsFile := { name := "ok.jpg", type := "image/jpeg", size := 10 }

/-- A PNG file whose compression will fail. -/
def fBad : JsFile := { name := "bad.png", type := "image/png", size := 20 }

/-- The intake metadata: the two files with their `Date.now()` stamps
and original-preview data URLs. -/
def demoMeta : List (JsFile × Nat × String) := [(fOk, 1, "urlOk"), (fBad, 2, "urlBad")]

/-- After dropping the two files: two pending records, batch started. -/
def demoS1 : AppState := intakeStep demoMeta initState

/-- The first batch at quality 80. -/
def demoB0 : Batch := { q := 80, snapshot := demoS1.images, marked := 0 }

/-- First record marked compressing. -/
def demoS2 : AppState := markStep demoS1 demoB0

/-- Second record marked compressing. -/
def demoS2b : AppState := markStep demoS2 { demoB0 with marked := 1 }

/-- The first batch's atomic swap: `ok.jpg-1` completed, `bad.png-2`
errored. -/
def demoS3 : AppState := finishStep demoCompress { demoB0 with marked := 2 } demoS2b

/-- Quality changed to 50: second batch starts over `demoS3.images`. -/
def demoS4 : AppState := setQualityStep 50 demoS3

/-- The second batch at quality 50. -/
def demoC0 : Batch := { q := 50, snapshot := demoS3.images, marked := 0 }

/-- The completed record re-enters `"compressing"`, keeping its old
payload. -/
def demoS5 : AppState := markStep demoS4 demoC0

/-- The errored record (failed at 80 ≠ 50, so eligible) re-enters
`"compressing"`, keeping its old error message. -/
def demoS6 : AppState := markStep demoS5 { demoC0 with marked := 1 }

theorem reach_demoS1 : Reachable demoCompress demoS1 :=
  Reachable.step Reachable.init (Step.intake demoMeta rfl)

theorem reach_demoS2 : Reachable demoCompress demoS2 :=
  Reachable.step reach_demoS1 (Step.mark demoB0 (by decide) (by decide))

theorem reach_demoS2b : Reachable demoCompress demoS2b :=
  Reachable.step reach_demoS2 (Step.mark { demoB0 with marked := 1 } (by decide) (by decide))

theorem reach_demoS3 : Reachable demoCompress demoS3 :=
  Reachable.step reach_demoS2b (Step.finish { demoB0 with marked := 2 } (by decide) (by decide))

theorem reach_demoS4 : Reachable demoCompress demoS4 :=
  Reachable.step reach_demoS3 (Step.setQuality 50 (by decide) (by decide))

theorem reach_demoS5 : Reachable demoCompress demoS5 :=
  Reachable.step reach_demoS4 (Step.mark demoC0 (by decide) (by decide))

theorem reach_demoS6 : Reachable demoCompress demoS6 :=
  Reachable.step reach_demoS5 (Step.mark { demoC0 with marked := 1 } (by decide) (by decide))

/-- The completed record as it stands in `demoS3`. -/
def demoCompleted : CompressedImage :=
  { id := "ok.jpg-1", file := fOk, originalUrl := "urlOk", originalSize := 10,
    compressedUrl := some "dataUrlC", compressedBlob := some [7, 7],
    compressedSize := some 2, status := Status.completed, error := none,
    quality := 80 }

/-- The errored record as it stands in `demoS3`. -/
def demoErrored : CompressedImage :=
  { id := "bad.png-2", file := fBad, originalUrl := "urlBad", originalSize := 20,
    compressedUrl := none, compressedBlob := none, compressedSize := none,
    status := Status.error, error := some "boom", quality := 80 }

/-- Record `ok.jpg-1` in `demoS5`: status `compressing`, old payload kept. -/
def demoMarkedOk : CompressedImage :=
  { id := "ok.jpg-1", file := fOk, originalUrl := "urlOk", originalSize := 10,
    compressedUrl := some "dataUrlC", compressedBlob := some [7, 7],
    compressedSize := some 2, status := Status.compressing, error := none,
    quality := 50 }

/-- Record `bad.png-2` in `demoS6`: status `compressing`, old error kept. -/
def demoMarkedBad : CompressedImage :=
  { id := "bad.png-2", file := fBad, originalUrl := "urlBad", originalSize := 20,
    compressedUrl := none, compressedBlob := none, compressedSize := none,
    status := Status.compressing, error := some "boom", quality := 50 }

/-! ## Claims -/

/-- C1 (counterexample): it is not the case that, at every observable
instant of every reachable state, the compressed payload
(`compressedBlob`/`compressedUrl`) is non-absent iff the status is
`completed`. In `demoS5` the record `ok.jpg-1` is being re-processed
after a quality change: its status is `compressing`, yet the
intermediate `setImages` of `compressAllImages` (lines 150-152) kept
its previous payload. -/
theorem C1_counterexample :
    ¬ ∀ (s : AppState), Reachable demoCompress s → ∀ img ∈ s.images,
        (img.compressedBlob ≠ none ↔ img.status = Status.completed) ∧
        (img.compressedUrl ≠ none ↔ img.status = Status.completed) := by
  intro hclaim
  have h := hclaim demoS5 reach_demoS5 demoMarkedOk (by decide)
  have hc : demoMarkedOk.status = Status.completed := h.1.mp (by decide)
  exact absurd hc (by decide)

/-- C1 (amended): in every reachable state, a `completed` record
carries a compressed payload and a `pending` or `error` record carries
none; a `compressing` record may retain the payload of its previous
completion while it is being re-processed. -/
theorem C1_payload_status (compress : CompressFn) (s : AppState)
    (h : Reachable compress s) : ∀ img ∈ s.images,
    (img.status = Status.completed →
      img.compressedBlob.isSome = true ∧ img.compressedUrl.isSome = true) ∧
    (img.status = Status.pending ∨ img.status = Status.error →
      img.compressedBlob = none ∧ img.compressedUrl = none) := by
  intro img hmem
  have hok := (stateOk_reachable h).1 img hmem
  refine ⟨fun hc => ⟨(hok.1 hc).1, (hok.1 hc).2.1⟩, fun hp => ?_⟩
  cases hp with
  | inl hp => exact ⟨(hok.2.1 hp).1, (hok.2.1 hp).2.1⟩
  | inr he => exact ⟨(hok.2.2 he).1, (hok.2.2 he).2.1⟩

/-- C1 witness: the amended theorem applied to the reachable state
`demoS3` and its completed record. -/
theorem C1_payload_status_witness :
    demoCompleted.compressedBlob.isSome = true ∧
      demoCompleted.compressedUrl.isSome = true :=
  (C1_payload_status demoCompress demoS3 reach_demoS3 demoCompleted (by decide)).1
    (by decide)

/-- C2: while a bulk run is in flight, no record of the live
collection carries any result that is not already in the batch's
snapshot (the only intermediate publications are `"compressing"`
marks), and the batch's results are published as one whole-collection
replacement computed from the snapshot once every record has resolved. -/
theorem C2_atomic_batch_publication (compress : CompressFn) (s : AppState)
    (b : Batch) (h : Reachable compress s) (hb : s.inflight = some b) :
    (∀ img ∈ s.images, resultsUnchanged b.snapshot img) ∧
    (finishStep compress b s).images = b.snapshot.map (resolveOne compress b.q) :=
  ⟨inflight_no_new_results h b hb, rfl⟩

/-- C2 witness: the theorem applied to the in-flight state `demoS5`
and its marked record. -/
theorem C2_atomic_batch_publication_witness :
    resultsUnchanged demoC0.snapshot demoMarkedOk :=
  (C2_atomic_batch_publication demoCompress demoS5 { demoC0 with marked := 1 }
    reach_demoS5 (by decide)).1 demoMarkedOk (by decide)

/-- C6 (counterexample): it is not the case that, at every observable
instant of every reachable state, `errorMessage` is non-absent iff the
status is `error`. In `demoS6` the record `bad.png-2` failed at
quality 80 and is being re-processed at quality 50: its status is
`compressing`, yet the intermediate `setImages` kept its previous
error message. -/
theorem C6_counterexample :
    ¬ ∀ (s : AppState), Reachable demoCompress s → ∀ img ∈ s.images,
        (img.error ≠ none ↔ img.status = Status.error) := by
  intro hclaim
  have h := hclaim demoS6 reach_demoS6 demoMarkedBad (by decide)
  have hc : demoMarkedBad.status = Status.error := h.mp (by decide)
  exact absurd hc (by decide)

/-- C6 (amended): in every reachable state, an `error` record carries
an error message and a `pending` or `completed` record carries none; a
`compressing` record may retain the message of its previous failure
while it is being re-processed at a different quality. -/
theorem C6_error_status (compress : CompressFn) (s : AppState)
    (h : Reachable compress s) : ∀ img ∈ s.images,
    (img.status = Status.error → img.error.isSome = true) ∧
    (img.status = Status.pending ∨ img.status = Status.completed →
      img.error = none) := by
  intro img hmem
  have hok := (stateOk_reachable h).1 img hmem
  refine ⟨fun he => (hok.2.2 he).2.2.2, fun hp => ?_⟩
  cases hp with
  | inl hp => exact (hok.2.1 hp).2.2.2
  | inr hc => exact (hok.1 hc).2.2.2

/-- C6 witness: the amended theorem applied to the reachable state
`demoS3` and its errored record. -/
theorem C6_error_status_witness : demoErrored.error.isSome = true :=
  (C6_error_status demoCompress demoS3 reach_demoS3 demoErrored (by decide)).1
    (by decide)

/-- C10: the final swap of a batch is computed entirely from the
snapshot taken when the batch started: removing a record while the
batch is in flight does not change the published result, and every
snapshot record (in particular a removed one) reappears under its id
in the published collection. -/
theorem C10_stale_snapshot_swap (compress : CompressFn) (b : Batch)
    (s : AppState) (rid : String) (r : CompressedImage) (hr : r ∈ b.snapshot) :
    (finishStep compress b (removeStep rid s)).images =
      (finishStep compress b s).images ∧
    ∃ r2 ∈ (finishStep compress b s).images, r2.id = r.id := by
  refine ⟨rfl, ⟨resolveOne compress b.q r, List.mem_map_of_mem _ hr, ?_⟩⟩
  rw [resolveOne]
  split
  · rfl
  · cases compress r.file b.q <;> rfl

/-- C10 witness: the completed record `ok.jpg-1` is removed while the
second demo batch is in flight; the swap ignores the removal and the
record's id is back in the published collection. -/
theorem C10_stale_snapshot_swap_witness :
    ((finishStep demoCompress demoC0 (removeStep "ok.jpg-1" demoS5)).images =
      (finishStep demoCompress demoC0 demoS5).images) ∧
    ∃ r2 ∈ (finishStep demoCompress demoC0 demoS5).images, r2.id = demoCompleted.id :=
  C10_stale_snapshot_swap demoCompress demoC0 demoS5 "ok.jpg-1" demoCompleted
    (by decide)

/-- C3: when a bulk run is driven at quality `q`, a record whose
`quality` differs from `q` is re-processed through the pipeline (the
skip guard of lines 145-148 does not fire), a record with status
`error` and `quality = q` is returned untouched, and every pipeline
outcome carries `quality = q` and a status of `completed` or `error`. -/
theorem C3_quality_change_reprocessing (compress : CompressFn) (q : Nat)
    (img : CompressedImage) :
    (img.quality ≠ q →
      resolveOne compress q img = applyResult q img (compress img.file q)) ∧
    (img.status = Status.error ∧ img.quality = q →
      resolveOne compress q img = img) ∧
    (∀ r, (applyResult q img r).quality = q ∧
      ((applyResult q img r).status = Status.completed ∨
        (applyResult q img r).status = Status.error)) := by
  refine ⟨?_, ?_, ?_⟩
  · intro hq
    rw [resolveOne, if_neg]
    intro hcontra
    exact hq hcontra.2
  · intro hc
    rw [resolveOne, if_pos hc]
  · intro r
    cases r <;> simp [applyResult]

/-- C3 witness: the completed demo record, produced at quality 80, is
re-processed when the bulk run is driven at quality 50. -/
theorem C3_quality_change_reprocessing_witness :
    resolveOne demoCompress 50 demoCompleted =
      applyResult 50 demoCompleted (demoCompress demoCompleted.file 50) :=
  (C3_quality_change_reprocessing demoCompress 50 demoCompleted).1 (by decide)

/-- A JPEG file for the traversal scenario. -/
def jpegDemo : JsFile := { name := "photo.jpg", type := "image/jpeg", size := 1 }

/-- A directory holding 101 JPEG files. -/
def wideDir : FSEntry := FSEntry.dir (replicateEntries (FSEntry.file jpegDemo) 101)

/-- A JPEG file nested three directories deep. -/
def deepDir : FSEntry :=
  FSEntry.dir (FSEntryList.cons
    (FSEntry.dir (FSEntryList.cons
      (FSEntry.dir (FSEntryList.cons (FSEntry.file jpegDemo) FSEntryList.nil))
      FSEntryList.nil))
    FSEntryList.nil)

/-- C4: with the single `readEntries` call of `processEntry` and a
reader that yields 100 entries per call (Chromium's batch size), a
dropped directory of 101 JPEG files produces only 100 records while
the directory tree contains 101 acceptable files — the traversal is
depth-unbounded (the nested file is found) but not width-complete. -/
theorem C4_truncated_directory :
    (processEntry 100 wideDir).length = 100 ∧
    (allAcceptedFiles wideDir).length = 101 ∧
    processEntry 100 deepDir = [jpegDemo] := by
  refine ⟨by decide, by decide, by decide⟩

/-- C8: `formatBytes` on the three specified inputs, with the
1024-based unit index and the two-decimal rounding evaluated in exact
arithmetic. -/
theorem C8_formatBytes_values :
    formatBytes (some 0) = "0 Bytes" ∧ formatBytes (some 1536) = "1.5 KB" ∧
      formatBytes (some 1048576) = "1 MB" := by
  have h1 : Nat.log 1024 1536 = 1 :=
    Nat.log_eq_of_pow_le_of_lt_pow (by norm_num) (by norm_num)
  have h2 : Nat.log 1024 1048576 = 2 :=
    Nat.log_eq_of_pow_le_of_lt_pow (by norm_num) (by norm_num)
  refine ⟨by simp [formatBytes], ?_, ?_⟩
  · simp only [formatBytes, h1]
    decide
  · simp only [formatBytes, h2]
    decide

/-- C9: the extension mapping of `getFileExtension` on all inputs, and
the single-file download artifact name
`compressed_<original-stem>.<ext>`. -/
theorem C9_extension_mapping :
    getFileExtension "image/jpeg" = "jpg" ∧
    getFileExtension "image/png" = "png" ∧
    getFileExtension "image/webp" = "webp" ∧
    (∀ t : String, t ≠ "image/jpeg" → t ≠ "image/png" → t ≠ "image/webp" →
      getFileExtension t = "bin") ∧
    ∀ (img : CompressedImage) (b : List Nat), img.compressedBlob = some b →
      handleDownload img = some (DownloadAction.single
        ("compressed_" ++ stripExt img.file.name ++ "." ++
          getFileExtension img.file.type) b) := by
  refine ⟨by decide, by decide, by decide, ?_, ?_⟩
  · intro t h1 h2 h3
    simp [getFileExtension, h1, h2, h3]
  · intro img b hb
    simp [handleDownload, hb, downloadName]

/-- C9 witness: an unsupported MIME type maps to `bin`, and the demo
record's download artifact carries the derived name. -/
theorem C9_extension_mapping_witness :
    getFileExtension "text/plain" = "bin" ∧
    handleDownload demoCompleted = some (DownloadAction.single
      ("compressed_" ++ stripExt demoCompleted.file.name ++ "." ++
        getFileExtension demoCompleted.file.type) [7, 7]) :=
  ⟨C9_extension_mapping.2.2.2.1 "text/plain" (by decide) (by decide) (by decide),
   C9_extension_mapping.2.2.2.2 demoCompleted [7, 7] (by decide)⟩

/-- C5: export-all is a case analysis on the completed records: none
means no download action, exactly one means the same artifact as
export-one for that record, more than one means a single archive under
the fixed name bundling every completed record's payload under its
derived filename. -/
theorem C5_export_all_cases (l : List CompressedImage) :
    (completedImages l = [] → handleDownloadAll l = none) ∧
    (∀ r, completedImages l = [r] → handleDownloadAll l = handleDownload r) ∧
    (∀ r1 r2 rest, completedImages l = r1 :: r2 :: rest →
      handleDownloadAll l = some (DownloadAction.archive
        "LitePress_Compressed_Images.zip"
        ((completedImages l).map
          (fun img => (downloadName img, img.compressedBlob.getD []))))) := by
  refine ⟨?_, ?_, ?_⟩
  · intro h
    unfold handleDownloadAll
    rw [h]
  · intro r h
    have hmem : r ∈ completedImages l := by
      rw [h]
      exact List.mem_cons_self r []
    have hmem2 : r ∈ l.filter
        (fun img => decide (img.status = Status.completed) && img.compressedBlob.isSome) :=
      hmem
    have hsome : r.compressedBlob.isSome = true := by
      have hp := (List.mem_filter.mp hmem2).2
      simp only [Bool.and_eq_true, decide_eq_true_eq] at hp
      exact hp.2
    obtain ⟨b, hb⟩ := Option.isSome_iff_exists.mp hsome
    unfold handleDownloadAll handleDownload
    rw [h, hb]
    simp [hb]
  · intro r1 r2 rest h
    unfold handleDownloadAll
    rw [h]

/-- C5 witness: in the resolved demo state exactly `ok.jpg-1` is
completed, and export-all equals export-one for it. -/
theorem C5_export_all_cases_witness :
    handleDownloadAll demoS3.images = handleDownload demoCompleted :=
  (C5_export_all_cases demoS3.images).2.1 demoCompleted (by decide)

/-- C7: removing a present id whose record occurs exactly once deletes
that record only, preserves the order and fields of every other
record, and changes neither the quality nor the in-flight batch (in
particular it starts no re-compression). -/
theorem C7_remove_exactly_one (s : AppState) (rid : String)
    (l1 l2 : List CompressedImage) (r : CompressedImage)
    (hsplit : s.images = l1 ++ r :: l2) (hr : r.id = rid)
    (h1 : ∀ x ∈ l1, x.id ≠ rid) (h2 : ∀ x ∈ l2, x.id ≠ rid) :
    (removeStep rid s).images = l1 ++ l2 ∧
    (removeStep rid s).quality = s.quality ∧
    (removeStep rid s).inflight = s.inflight := by
  refine ⟨?_, rfl, rfl⟩
  have key : ∀ (l : List CompressedImage), (∀ x ∈ l, x.id ≠ rid) →
      handleRemoveImage rid l = l := by
    intro l hl
    exact List.filter_eq_self.mpr (fun a ha => by simpa using hl a ha)
  show handleRemoveImage rid s.images = l1 ++ l2
  rw [hsplit]
  rw [show handleRemoveImage rid (l1 ++ r :: l2) =
    handleRemoveImage rid l1 ++ handleRemoveImage rid (r :: l2) from
      List.filter_append l1 (r :: l2)]
  rw [key l1 h1]
  rw [show handleRemoveImage rid (r :: l2) = handleRemoveImage rid l2 by
    unfold handleRemoveImage
    rw [List.filter_cons_of_neg]
    simp [hr]]
  rw [key l2 h2]

/-- Records for the removal scenario. -/
def recA : CompressedImage :=
  { id := "a", file := fOk, originalUrl := "u", originalSize := 1,
    compressedUrl := none, compressedBlob := none, compressedSize := none,
    status := Status.pending, error := none, quality := 80 }

/-- Second record of the removal scenario. -/
def recB : CompressedImage := { recA with id := "b" }

/-- Third record of the removal scenario. -/
def recC : CompressedImage := { recA with id := "c" }

/-- A quiescent three-record state for the removal scenario. -/
def demoRemoveState : AppState :=
  { images := [recA, recB, recC], quality := 80, inflight := none }

/-- C7 witness: removing `"b"` from the three-record state leaves the
two others untouched and starts nothing. -/
theorem C7_remove_exactly_one_witness :
    (removeStep "b" demoRemoveState).images = [recA] ++ [recC] ∧
    (removeStep "b" demoRemoveState).quality = demoRemoveState.quality ∧
    (removeStep "b" demoRemoveState).inflight = demoRemoveState.inflight :=
  C7_remove_exactly_one demoRemoveState "b" [recA] [recC] recB (by decide)
    (by decide) (by decide) (by decide)
